import Mathlib

/-!
Shallow embedding of the Obsidian Date Highlighter core (src/main.ts):
the four fixed date regexes and their scanner, the strict moment-based
parser, the age classifier and tooltip generator, the filename-styles
pass, and the editor decoration pass built on a RangeSetBuilder.
-/

/-- One token of a date regex: an ASCII digit class or a literal character.
The four source regexes are sequences of these tokens only. -/
inductive Tok
  | digit
  | lit (c : Char)
deriving DecidableEq

/-- A date regex shape: a fixed token sequence. -/
abbrev Shape := List Tok

def tokMatches : Tok → Char → Bool
  | .digit, c => c.isDigit
  | .lit x, c => x == c

/-- Does the shape match a prefix of the character list? -/
def matchesAt : Shape → List Char → Bool
  | [], _ => true
  | _ :: _, [] => false
  | t :: ts, c :: cs => tokMatches t c && matchesAt ts cs

/-- Left-to-right, non-overlapping scan of a global JS regex over a string
(the semantics of `text.match(regex)` / repeated `regex.exec`): at each
position try the shape; on a match, emit (position, matched substring) and
resume after the consumed characters, tracked by the skip counter. -/
def scan (sh : Shape) : List Char → Nat → Nat → List (Nat × String)
  | [], _, _ => []
  | _ :: cs, pos, skip + 1 => scan sh cs (pos + 1) skip
  | c :: cs, pos, 0 =>
    if matchesAt sh (c :: cs) then
      (pos, String.mk ((c :: cs).take sh.length)) :: scan sh cs (pos + 1) (sh.length - 1)
    else
      scan sh cs (pos + 1) 0

/-- Regex `\d{4}-\d{2}-\d{2}`  (YYYY-MM-DD). -/
def shapeYMDdash : Shape :=
  [.digit, .digit, .digit, .digit, .lit '-', .digit, .digit, .lit '-', .digit, .digit]

/-- Regex `\d{2}/\d{2}/\d{4}`  (MM/DD/YYYY). -/
def shapeMDYslash : Shape :=
  [.digit, .digit, .lit '/', .digit, .digit, .lit '/', .digit, .digit, .digit, .digit]

/-- Regex `\d{2}-\d{2}-\d{4}`  (DD-MM-YYYY). -/
def shapeDMYdash : Shape :=
  [.digit, .digit, .lit '-', .digit, .digit, .lit '-', .digit, .digit, .digit, .digit]

/-- Regex `\d{4}\.\d{2}\.\d{2}`  (YYYY.MM.DD). -/
def shapeYMDdot : Shape :=
  [.digit, .digit, .digit, .digit, .lit '.', .digit, .digit, .lit '.', .digit, .digit]

/-- The DATE_FORMATS array of src/main.ts, in declaration order. -/
def DATE_FORMATS : List Shape := [shapeYMDdash, shapeMDYslash, shapeDMYdash, shapeYMDdot]

/-- `findDatesInText` of src/main.ts: for each regex in DATE_FORMATS push all
of its matches onto the accumulated list. -/
def findDatesInText (text : String) : List String :=
  DATE_FORMATS.foldl (fun dates sh => dates ++ (scan sh text.data 0 0).map Prod.snd) []

/-- A calendar date as produced by a successful strict parse. -/
structure CivilDate where
  year : Int
  month : Nat
  day : Nat
deriving DecidableEq

def isLeapYear (y : Int) : Bool :=
  y.emod 4 == 0 && (y.emod 100 != 0 || y.emod 400 == 0)

def daysInMonth (y : Int) : Nat → Nat
  | 1 => 31
  | 2 => if isLeapYear y then 29 else 28
  | 3 => 31
  | 4 => 30
  | 5 => 31
  | 6 => 30
  | 7 => 31
  | 8 => 31
  | 9 => 30
  | 10 => 31
  | 11 => 30
  | 12 => 31
  | _ => 0

def digitsToNat (cs : List Char) : Nat :=
  cs.foldl (fun n c => n * 10 + (c.toNat - 48)) 0

/-- Calendar-overflow check done by moment on a shape-matching candidate:
the parse is valid only when month and day are in range for the year. -/
def mkValidDate (y : Int) (m d : Nat) : Option CivilDate :=
  if 1 ≤ m ∧ m ≤ 12 ∧ 1 ≤ d ∧ d ≤ daysInMonth y m then some ⟨y, m, d⟩ else none

/-- The four moment format strings of `parseDate` in src/main.ts. -/
inductive DateFormat
  | ymdDash
  | mdySlash
  | dmyDash
  | ymdDot
deriving DecidableEq

/-- Strict parsing of one moment format string (`moment(dateStr, format, true)`):
the input must have exactly the digit counts and literal separators of the
format, and the resulting calendar date must not overflow. -/
def momentStrict : DateFormat → String → Option CivilDate
  | .ymdDash, s =>
    match s.data with
    | [y1, y2, y3, y4, a, m1, m2, b, d1, d2] =>
      if y1.isDigit && y2.isDigit && y3.isDigit && y4.isDigit && (a == '-') &&
          m1.isDigit && m2.isDigit && (b == '-') && d1.isDigit && d2.isDigit then
        mkValidDate (digitsToNat [y1, y2, y3, y4] : Nat) (digitsToNat [m1, m2])
          (digitsToNat [d1, d2])
      else none
    | _ => none
  | .mdySlash, s =>
    match s.data with
    | [m1, m2, a, d1, d2, b, y1, y2, y3, y4] =>
      if m1.isDigit && m2.isDigit && (a == '/') && d1.isDigit && d2.isDigit && (b == '/') &&
          y1.isDigit && y2.isDigit && y3.isDigit && y4.isDigit then
        mkValidDate (digitsToNat [y1, y2, y3, y4] : Nat) (digitsToNat [m1, m2])
          (digitsToNat [d1, d2])
      else none
    | _ => none
  | .dmyDash, s =>
    match s.data with
    | [d1, d2, a, m1, m2, b, y1, y2, y3, y4] =>
      if d1.isDigit && d2.isDigit && (a == '-') && m1.isDigit && m2.isDigit && (b == '-') &&
          y1.isDigit && y2.isDigit && y3.isDigit && y4.isDigit then
        mkValidDate (digitsToNat [y1, y2, y3, y4] : Nat) (digitsToNat [m1, m2])
          (digitsToNat [d1, d2])
      else none
    | _ => none
  | .ymdDot, s =>
    match s.data with
    | [y1, y2, y3, y4, a, m1, m2, b, d1, d2] =>
      if y1.isDigit && y2.isDigit && y3.isDigit && y4.isDigit && (a == '.') &&
          m1.isDigit && m2.isDigit && (b == '.') && d1.isDigit && d2.isDigit then
        mkValidDate (digitsToNat [y1, y2, y3, y4] : Nat) (digitsToNat [m1, m2])
          (digitsToNat [d1, d2])
      else none
    | _ => none

/-- The `formats` array tried by `parseDate`, in source order. -/
def momentFormats : List DateFormat := [.ymdDash, .mdySlash, .dmyDash, .ymdDot]

/-- The for-loop of `parseDate`: first valid parse wins. -/
def firstValid : List DateFormat → String → Option CivilDate
  | [], _ => none
  | f :: fs, s =>
    match momentStrict f s with
    | some d => some d
    | none => firstValid fs s

/-- `parseDate` of src/main.ts. -/
def parseDate (dateStr : String) : Option CivilDate :=
  firstValid momentFormats dateStr

def msPerDay : Int := 86400000

/-- Days between 1970-01-01 and the given civil date (the epoch day number
underlying moment timestamps). -/
def daysFromCivil (y : Int) (m d : Nat) : Int :=
  let yAdj : Int := if m ≤ 2 then y - 1 else y
  let era : Int := Int.fdiv yAdj 400
  let yoe : Nat := (yAdj - era * 400).toNat
  let mp : Nat := if m ≤ 2 then m + 9 else m - 3
  let doy : Nat := (153 * mp + 2) / 5 + (d - 1)
  let doe : Nat := yoe * 365 + yoe / 4 - yoe / 100 + doy
  era * 146097 + (doe : Int) - 719468

/-- The timestamp (ms since epoch) of a parsed date, i.e. midnight of that day:
moment parses a date-only string to the start of the day. -/
def dateStartMs (date : CivilDate) : Int :=
  daysFromCivil date.year date.month date.day * msPerDay

/-- `today.diff(date, 'days')`: whole days between a current instant and a
parsed date, truncated toward zero (moment's absFloor). -/
def daysSince (now : Int) (date : CivilDate) : Int :=
  Int.tdiv (now - dateStartMs date) msPerDay

/-- The plugin settings interface of src/main.ts. -/
structure DateHighlighterSettings where
  highlightInlineContent : Bool
  highlightFilenames : Bool
  recentColor : String
  intermediateColor : String
  oldColor : String
  recentDays : Int
  intermediateDays : Int
  textColor : String
deriving DecidableEq

/-- DEFAULT_SETTINGS of src/main.ts. -/
def DEFAULT_SETTINGS : DateHighlighterSettings :=
  { highlightInlineContent := true
    highlightFilenames := true
    recentColor := "#a4e7c3"
    intermediateColor := "#e7dba4"
    oldColor := "#e7a4a4"
    recentDays := 14
    intermediateDays := 30
    textColor := "#000000" }

/-- The `{ bg, text }` pair returned by `getHighlightColor`. -/
structure HighlightColors where
  bg : String
  text : String
deriving DecidableEq

/-- `getHighlightColor` of src/main.ts, with the ambient `moment()` made an
explicit `now` timestamp. -/
def getHighlightColor (dateStr : String) (settings : DateHighlighterSettings)
    (now : Int) : HighlightColors :=
  match parseDate dateStr with
  | none => ⟨settings.oldColor, settings.textColor⟩
  | some date =>
    if daysSince now date ≤ settings.recentDays then
      ⟨settings.recentColor, settings.textColor⟩
    else if daysSince now date ≤ settings.intermediateDays then
      ⟨settings.intermediateColor, settings.textColor⟩
    else
      ⟨settings.oldColor, settings.textColor⟩

/-- `generateDateTooltip` of src/main.ts, with the ambient `moment()` made an
explicit `now` timestamp. -/
def generateDateTooltip (dateStr : String) (now : Int) : String :=
  match parseDate dateStr with
  | none => ""
  | some date =>
    let daysDiff := daysSince now date
    let daysText := daysDiff.natAbs
    if daysDiff = 0 then "Today"
    else if daysDiff = 1 then "Yesterday"
    else if daysDiff = -1 then "Tomorrow"
    else if daysDiff > 0 then toString daysText ++ " days ago"
    else "In " ++ toString daysText ++ " days"

/-- `updateFileStyles` of src/main.ts, modelled as the list of produced CSS
rules: one (identifier, colors) entry per file whose identifier contains a
date match, computed from `dates[0]`; nothing when the toggle is off. -/
def updateFileStyles (settings : DateHighlighterSettings) (files : List String)
    (now : Int) : List (String × HighlightColors) :=
  if settings.highlightFilenames = false then []
  else
    files.filterMap fun f =>
      match findDatesInText f with
      | [] => none
      | dateStr :: _ => some (f, getHighlightColor dateStr settings now)

/-- One visible range of the editor: its absolute start offset and its text
(`view.state.doc.sliceString(from, to)`). -/
structure VisRange where
  start : Nat
  text : String
deriving DecidableEq

/-- One `Decoration.mark` added by `buildDecorations`: absolute span plus the
style attributes and tooltip it carries. -/
structure Mark where
  start : Nat
  stop : Nat
  bg : String
  textColor : String
  tooltip : String
deriving DecidableEq

/-- The (absolute position, matched substring) pairs produced for one visible
range: the regexes run over the range text in declaration order and each
match index is offset by the range start. -/
def rangeAdds (r : VisRange) : List (Nat × String) :=
  DATE_FORMATS.foldl
    (fun acc sh => acc ++ (scan sh r.text.data 0 0).map (fun pm => (r.start + pm.1, pm.2))) []

/-- All matches of a pass in the order `buildDecorations` visits them:
outer loop over visible ranges, inner loop over patterns. -/
def allAdds (ranges : List VisRange) : List (Nat × String) :=
  ranges.foldl (fun acc r => acc ++ rangeAdds r) []

/-- Per-match decoration of `buildDecorations`, with each ambient `moment()`
call replaced by one read of an explicit clock: the color read comes first,
then the tooltip read, two reads per match. -/
def decorateMatches (clock : Nat → Int) (settings : DateHighlighterSettings) :
    Nat → List (Nat × String) → List Mark
  | _, [] => []
  | k, (pos, dateStr) :: rest =>
    let colors := getHighlightColor dateStr settings (clock k)
    let tooltip := generateDateTooltip dateStr (clock (k + 1))
    ⟨pos, pos + dateStr.length, colors.bg, colors.text, tooltip⟩ ::
      decorateMatches clock settings (k + 2) rest

/-- Modelled from @codemirror/state: `RangeSetBuilder.add` throws when a range
starts before the previously added range (ranges must be added sorted by
start position); otherwise the ranges accumulate into the finished set. -/
def builderAddAll : List Mark → Int → Except String (List Mark)
  | [], _ => .ok []
  | m :: ms, lastFrom =>
    if (m.start : Int) < lastFrom then
      .error "Ranges must be added sorted by from position and startSide"
    else
      (builderAddAll ms (m.start : Int)).map (fun rest => m :: rest)

/-- Initial lower bound of the RangeSetBuilder (its -Far sentinel). -/
def builderFar : Int := -1000000000

/-- `buildDecorations` of src/main.ts: empty when inline highlighting is off,
otherwise every match of every pattern in every visible range is decorated
(reading the clock twice per match) and added to the RangeSetBuilder in
visit order. -/
def buildDecorations (clock : Nat → Int) (settings : DateHighlighterSettings)
    (ranges : List VisRange) : Except String (List Mark) :=
  if settings.highlightInlineContent = false then .ok []
  else builderAddAll (decorateMatches clock settings 0 (allAdds ranges)) builderFar

/-- Modelled from the spec: the single-snapshot pass, in which the current
moment is read once per pass and every date is classified and labelled
against that one instant. -/
def buildDecorationsAt (now : Int) (settings : DateHighlighterSettings)
    (ranges : List VisRange) : Except String (List Mark) :=
  if settings.highlightInlineContent = false then .ok []
  else
    builderAddAll
      ((allAdds ranges).map fun pm =>
        ⟨pm.1, pm.1 + pm.2.length, (getHighlightColor pm.2 settings now).bg,
          (getHighlightColor pm.2 settings now).text, generateDateTooltip pm.2 now⟩)
      builderFar

/-- A clock that ticks from 2024-01-02 to 2024-03-01 after the first match's
two reads: used to exhibit a pass whose dates see different current moments. -/
def clockCex : Nat → Int :=
  fun k => if k < 2 then dateStartMs ⟨2024, 1, 2⟩ else dateStartMs ⟨2024, 3, 1⟩

theorem tdiv_nonpos_of_nonpos_of_nonneg {a b : Int} (ha : a ≤ 0) (hb : 0 ≤ b) :
    a.tdiv b ≤ 0 := by
  have h1 : a.tdiv b = -((-a).tdiv b) := by rw [Int.neg_tdiv, neg_neg]
  have h2 : 0 ≤ (-a).tdiv b := Int.tdiv_nonneg (by omega) hb
  omega

theorem firstValid_eq_some_iff (fs : List DateFormat) (s : String) (d : CivilDate) :
    firstValid fs s = some d ↔
      ∃ l₁ f l₂, fs = l₁ ++ f :: l₂ ∧ momentStrict f s = some d ∧
        ∀ g ∈ l₁, momentStrict g s = none := by
  induction fs with
  | nil => simp [firstValid]
  | cons f fs ih =>
    cases hf : momentStrict f s with
    | some d' =>
      have hfv : firstValid (f :: fs) s = some d' := by simp [firstValid, hf]
      rw [hfv]
      constructor
      · intro h
        injection h with h
        subst h
        exact ⟨[], f, fs, rfl, hf, by simp⟩
      · rintro ⟨l₁, g, l₂, heq, hg, hnone⟩
        cases l₁ with
        | nil =>
          simp only [List.nil_append, List.cons.injEq] at heq
          obtain ⟨rfl, rfl⟩ := heq
          rw [hf] at hg
          exact hg
        | cons a l₁ =>
          simp only [List.cons_append, List.cons.injEq] at heq
          obtain ⟨rfl, _⟩ := heq
          have := hnone f (by simp)
          rw [hf] at this
          exact absurd this (by simp)
    | none =>
      have hfv : firstValid (f :: fs) s = firstValid fs s := by simp [firstValid, hf]
      rw [hfv, ih]
      constructor
      · rintro ⟨l₁, g, l₂, rfl, hg, hnone⟩
        refine ⟨f :: l₁, g, l₂, rfl, hg, ?_⟩
        intro x hx
        rcases List.mem_cons.mp hx with rfl | hx
        · exact hf
        · exact hnone x hx
      · rintro ⟨l₁, g, l₂, heq, hg, hnone⟩
        cases l₁ with
        | nil =>
          simp only [List.nil_append, List.cons.injEq] at heq
          obtain ⟨rfl, _⟩ := heq
          rw [hf] at hg
          exact absurd hg (by simp)
        | cons a l₁ =>
          simp only [List.cons_append, List.cons.injEq] at heq
          obtain ⟨rfl, rfl⟩ := heq
          exact ⟨l₁, g, l₂, rfl, hg, fun x hx => hnone x (List.mem_cons_of_mem _ hx)⟩

theorem firstValid_eq_none_iff (fs : List DateFormat) (s : String) :
    firstValid fs s = none ↔ ∀ f ∈ fs, momentStrict f s = none := by
  induction fs with
  | nil => simp [firstValid]
  | cons f fs ih =>
    simp only [firstValid, List.forall_mem_cons]
    cases hf : momentStrict f s with
    | some d' => simp [hf]
    | none => simp [hf, ih]

/-- C10: in every branch of `getHighlightColor` — the three category branches
and the parse-failure branch — the text component of the returned color pair
is the configured `textColor`; only the background varies. -/
theorem text_color_invariant (dateStr : String) (settings : DateHighlighterSettings)
    (now : Int) : (getHighlightColor dateStr settings now).text = settings.textColor := by
  rcases h : parseDate dateStr with _ | date
  · simp [getHighlightColor, h]
  · simp only [getHighlightColor, h]
    split_ifs <;> rfl

/-- C5: when no format yields a strictly valid calendar date, `getHighlightColor`
returns the Old background with the configured text color and
`generateDateTooltip` returns the empty string; in particular "2024-02-30"
(valid shape, invalid calendar date) fails to parse. -/
theorem parse_failure_old_color_empty_label :
    (∀ (s : String) (settings : DateHighlighterSettings) (now : Int), parseDate s = none →
      getHighlightColor s settings now = ⟨settings.oldColor, settings.textColor⟩ ∧
        generateDateTooltip s now = "")
    ∧ parseDate "2024-02-30" = none := by
  refine ⟨fun s settings now h => ⟨?_, ?_⟩, by decide⟩
  · simp [getHighlightColor, h]
  · simp [generateDateTooltip, h]

theorem parse_failure_old_color_empty_label_witness :
    getHighlightColor "2024-02-30" DEFAULT_SETTINGS 0 =
      ⟨DEFAULT_SETTINGS.oldColor, DEFAULT_SETTINGS.textColor⟩ ∧
      generateDateTooltip "2024-02-30" 0 = "" :=
  parse_failure_old_color_empty_label.1 "2024-02-30" DEFAULT_SETTINGS 0 (by decide)

/-- C3: a date that strictly parses and whose day starts strictly after `now`
(a future date) has `daysSince ≤ 0`, so whenever `recentDays ≥ 0` it is
classified Recent. -/
theorem future_dates_classified_recent (s : String) (settings : DateHighlighterSettings)
    (now : Int) (date : CivilDate)
    (hparse : parseDate s = some date)
    (hrecent : 0 ≤ settings.recentDays)
    (hfuture : now < dateStartMs date) :
    getHighlightColor s settings now = ⟨settings.recentColor, settings.textColor⟩ := by
  have hds : daysSince now date ≤ 0 := by
    unfold daysSince
    exact tdiv_nonpos_of_nonpos_of_nonneg (by omega) (by norm_num [msPerDay])
  simp only [getHighlightColor, hparse]
  rw [if_pos (le_trans hds hrecent)]

theorem future_dates_classified_recent_witness :
    getHighlightColor "2024-04-02" DEFAULT_SETTINGS (dateStartMs ⟨2024, 3, 30⟩) =
      ⟨DEFAULT_SETTINGS.recentColor, DEFAULT_SETTINGS.textColor⟩ :=
  future_dates_classified_recent "2024-04-02" DEFAULT_SETTINGS (dateStartMs ⟨2024, 3, 30⟩)
    ⟨2024, 4, 2⟩ (by decide) (by decide) (by decide)

/-- C4: classification buckets by inclusive thresholds evaluated in order
(Recent, then Intermediate, then Old), and on the spec's concrete examples
with now = 2024-03-30 and the default thresholds 14/30, "2024-03-29" (1 day)
is Recent, "2024-03-10" (20 days) is Intermediate, "2024-02-01" (58 days)
is Old. -/
theorem classification_buckets_inclusive_ordered :
    (∀ (settings : DateHighlighterSettings) (now : Int) (s : String) (date : CivilDate),
      parseDate s = some date →
        (daysSince now date ≤ settings.recentDays →
          getHighlightColor s settings now = ⟨settings.recentColor, settings.textColor⟩) ∧
        (settings.recentDays < daysSince now date →
          daysSince now date ≤ settings.intermediateDays →
          getHighlightColor s settings now = ⟨settings.intermediateColor, settings.textColor⟩) ∧
        (settings.recentDays < daysSince now date →
          settings.intermediateDays < daysSince now date →
          getHighlightColor s settings now = ⟨settings.oldColor, settings.textColor⟩))
    ∧ daysSince (dateStartMs ⟨2024, 3, 30⟩) ⟨2024, 3, 29⟩ = 1
    ∧ daysSince (dateStartMs ⟨2024, 3, 30⟩) ⟨2024, 3, 10⟩ = 20
    ∧ daysSince (dateStartMs ⟨2024, 3, 30⟩) ⟨2024, 2, 1⟩ = 58
    ∧ getHighlightColor "2024-03-29" DEFAULT_SETTINGS (dateStartMs ⟨2024, 3, 30⟩) =
        ⟨DEFAULT_SETTINGS.recentColor, DEFAULT_SETTINGS.textColor⟩
    ∧ getHighlightColor "2024-03-10" DEFAULT_SETTINGS (dateStartMs ⟨2024, 3, 30⟩) =
        ⟨DEFAULT_SETTINGS.intermediateColor, DEFAULT_SETTINGS.textColor⟩
    ∧ getHighlightColor "2024-02-01" DEFAULT_SETTINGS (dateStartMs ⟨2024, 3, 30⟩) =
        ⟨DEFAULT_SETTINGS.oldColor, DEFAULT_SETTINGS.textColor⟩ := by
  refine ⟨fun settings now s date h => ⟨?_, ?_, ?_⟩,
    by decide, by decide, by decide, by decide, by decide, by decide⟩
  · intro h1
    simp only [getHighlightColor, h]
    rw [if_pos h1]
  · intro h1 h2
    simp only [getHighlightColor, h]
    rw [if_neg (by omega), if_pos h2]
  · intro h1 h2
    simp only [getHighlightColor, h]
    rw [if_neg (by omega), if_neg (by omega)]

theorem classification_buckets_inclusive_ordered_witness :
    getHighlightColor "2024-03-25" DEFAULT_SETTINGS (dateStartMs ⟨2024, 3, 30⟩) =
      ⟨DEFAULT_SETTINGS.recentColor, DEFAULT_SETTINGS.textColor⟩ :=
  (classification_buckets_inclusive_ordered.1 DEFAULT_SETTINGS (dateStartMs ⟨2024, 3, 30⟩)
    "2024-03-25" ⟨2024, 3, 25⟩ (by decide)).1 (by decide)

/-- C6: `parseDate` tries the four moment formats in the fixed source order
YYYY-MM-DD, MM/DD/YYYY, DD-MM-YYYY, YYYY.MM.DD and returns the first strictly
valid parse: it returns `some d` exactly when some format parses `s` to `d`
and all earlier formats fail, and `none` exactly when every format fails —
so a string strictly valid under more than one format parses under the
format listed first. -/
theorem parseDate_first_valid_format_wins (s : String) (d : CivilDate) :
    (parseDate s = some d ↔
      ∃ l₁ f l₂, momentFormats = l₁ ++ f :: l₂ ∧ momentStrict f s = some d ∧
        ∀ g ∈ l₁, momentStrict g s = none)
    ∧ (parseDate s = none ↔ ∀ f ∈ momentFormats, momentStrict f s = none) :=
  ⟨firstValid_eq_some_iff momentFormats s d, firstValid_eq_none_iff momentFormats s⟩

theorem parseDate_first_valid_format_wins_witness :
    parseDate "2024-03-30" = some ⟨2024, 3, 30⟩ :=
  (parseDate_first_valid_format_wins "2024-03-30" ⟨2024, 3, 30⟩).1.mpr
    ⟨[], .ymdDash, [.mdySlash, .dmyDash, .ymdDot], rfl, by decide, by simp⟩

/-- C2 counterexample: in the identifier "03/30/2024 2024-01-01" the leftmost
date occurrence is "03/30/2024" at offset 0 (every occurrence of
"2024-01-01" is at offset 11), yet `findDatesInText` lists "2024-01-01"
first — the YYYY-MM-DD pattern is declared first — so the filename pass
styles the file from "2024-01-01", not from the leftmost occurrence; at
now = 2024-01-20 that even yields the Intermediate color although the
leftmost occurrence, being a future date, would yield the Recent color. -/
theorem filename_first_match_not_leftmost_cex :
    findDatesInText "03/30/2024 2024-01-01" = ["2024-01-01", "03/30/2024"]
    ∧ (0, "03/30/2024") ∈ rangeAdds ⟨0, "03/30/2024 2024-01-01"⟩
    ∧ (∀ pm ∈ rangeAdds ⟨0, "03/30/2024 2024-01-01"⟩, pm.2 = "2024-01-01" → pm.1 = 11)
    ∧ updateFileStyles DEFAULT_SETTINGS ["03/30/2024 2024-01-01"] (dateStartMs ⟨2024, 1, 20⟩) =
        [("03/30/2024 2024-01-01",
          getHighlightColor "2024-01-01" DEFAULT_SETTINGS (dateStartMs ⟨2024, 1, 20⟩))]
    ∧ getHighlightColor "2024-01-01" DEFAULT_SETTINGS (dateStartMs ⟨2024, 1, 20⟩) ≠
        getHighlightColor "03/30/2024" DEFAULT_SETTINGS (dateStartMs ⟨2024, 1, 20⟩) := by
  refine ⟨by decide, by decide, by decide, by decide, by decide⟩

/-- C2 as amended: for a file whose identifier has at least one date-pattern
match, the filename pass produces exactly one entry for that identifier,
computed from the first element of `findDatesInText` — the first match, in
left-to-right order, of the earliest-declared pattern that matches, which
need not be the leftmost occurrence in the identifier — and all later
elements of the match list are ignored; across a file list there is exactly
one entry per matching file. -/
theorem fileStyles_uses_head_of_findDates :
    (∀ (settings : DateHighlighterSettings) (now : Int) (f : String)
      (dateStr : String) (rest : List String),
      settings.highlightFilenames = true →
      findDatesInText f = dateStr :: rest →
      updateFileStyles settings [f] now = [(f, getHighlightColor dateStr settings now)])
    ∧ (∀ (settings : DateHighlighterSettings) (now : Int) (files : List String),
      settings.highlightFilenames = true →
      (updateFileStyles settings files now).length =
        (files.filter fun f => !(findDatesInText f).isEmpty).length) := by
  constructor
  · intro settings now f dateStr rest hon hfind
    simp [updateFileStyles, hon, hfind]
  · intro settings now files hon
    induction files with
    | nil => simp [updateFileStyles, hon]
    | cons f fs ih =>
      simp only [updateFileStyles, hon] at ih ⊢
      simp only [Bool.true_eq_false, if_false, List.filterMap_cons, List.filter_cons] at ih ⊢
      cases hfind : findDatesInText f with
      | nil => simpa [hfind] using ih
      | cons d rest => simpa [hfind] using ih

theorem fileStyles_uses_head_of_findDates_witness :
    updateFileStyles DEFAULT_SETTINGS ["x2024-01-01"] 0 =
      [("x2024-01-01", getHighlightColor "2024-01-01" DEFAULT_SETTINGS 0)] :=
  fileStyles_uses_head_of_findDates.1 DEFAULT_SETTINGS 0 "x2024-01-01" "2024-01-01" []
    (by decide) (by decide)

theorem digit_bne_dash {c : Char} (h : c.isDigit = true) : (('-' : Char) == c) = false := by
  cases hc : ('-' : Char) == c with
  | false => rfl
  | true =>
    have : ('-' : Char) = c := eq_of_beq hc
    subst this
    exact absurd h (by decide)

theorem digit_bne_slash {c : Char} (h : c.isDigit = true) : (('/' : Char) == c) = false := by
  cases hc : ('/' : Char) == c with
  | false => rfl
  | true =>
    have : ('/' : Char) = c := eq_of_beq hc
    subst this
    exact absurd h (by decide)

theorem digit_bne_dot {c : Char} (h : c.isDigit = true) : (('.' : Char) == c) = false := by
  cases hc : ('.' : Char) == c with
  | false => rfl
  | true =>
    have : ('.' : Char) = c := eq_of_beq hc
    subst this
    exact absurd h (by decide)

theorem matchesAt_length_le (sh : Shape) : ∀ cs : List Char,
    matchesAt sh cs = true → sh.length ≤ cs.length := by
  induction sh with
  | nil => intro cs _; simp
  | cons t ts ih =>
    intro cs h
    cases cs with
    | nil => simp [matchesAt] at h
    | cons c cs =>
      simp only [matchesAt, Bool.and_eq_true] at h
      have := ih cs h.2
      simp only [List.length_cons]
      omega

theorem scan_sound (sh : Shape) (cs : List Char) : ∀ (pos skip : Nat) (pm : Nat × String),
    pm ∈ scan sh cs pos skip →
      pos + skip ≤ pm.1 ∧ pm.1 + sh.length ≤ pos + cs.length ∧
        matchesAt sh (cs.drop (pm.1 - pos)) = true ∧
        pm.2 = String.mk ((cs.drop (pm.1 - pos)).take sh.length) := by
  induction cs with
  | nil =>
    intro pos skip pm h
    simp [scan] at h
  | cons c cs ih =>
    intro pos skip pm h
    match skip with
    | skip + 1 =>
      rw [scan] at h
      obtain ⟨h1, h2, h3, h4⟩ := ih (pos + 1) skip pm h
      have hs : pm.1 - pos = (pm.1 - (pos + 1)) + 1 := by omega
      rw [hs, List.drop_succ_cons]
      exact ⟨by omega, by simp; omega, h3, h4⟩
    | 0 =>
      rw [scan] at h
      by_cases hm : matchesAt sh (c :: cs) = true
      · rw [if_pos hm] at h
        rcases List.mem_cons.mp h with rfl | h
        · refine ⟨by omega, ?_, by simpa using hm, by simp⟩
          have := matchesAt_length_le sh (c :: cs) hm
          simp only [List.length_cons] at this ⊢
          omega
        · obtain ⟨h1, h2, h3, h4⟩ := ih (pos + 1) (sh.length - 1) pm h
          have hge : pos + 1 ≤ pm.1 := by omega
          have hs : pm.1 - pos = (pm.1 - (pos + 1)) + 1 := by omega
          rw [hs, List.drop_succ_cons]
          exact ⟨by omega, by simp; omega, h3, h4⟩
      · rw [if_neg hm] at h
        obtain ⟨h1, h2, h3, h4⟩ := ih (pos + 1) 0 pm h
        have hs : pm.1 - pos = (pm.1 - (pos + 1)) + 1 := by omega
        rw [hs, List.drop_succ_cons]
        exact ⟨by omega, by simp; omega, h3, h4⟩

theorem scan_chain (sh : Shape) (cs : List Char) :
    ∀ pos skip, List.Chain' (fun a b : Nat × String => a.1 + sh.length ≤ b.1)
      (scan sh cs pos skip) := by
  induction cs with
  | nil => intro pos skip; simp [scan]
  | cons c cs ih =>
    intro pos skip
    match skip with
    | skip + 1 =>
      rw [scan]
      exact ih (pos + 1) skip
    | 0 =>
      rw [scan]
      by_cases hm : matchesAt sh (c :: cs) = true
      · rw [if_pos hm]
        rw [List.chain'_cons']
        refine ⟨?_, ih (pos + 1) (sh.length - 1)⟩
        intro y hy
        have hmem : y ∈ scan sh cs (pos + 1) (sh.length - 1) := List.mem_of_mem_head? hy
        have := (scan_sound sh cs (pos + 1) (sh.length - 1) y hmem).1
        simp only
        omega
      · rw [if_neg hm]
        exact ih (pos + 1) 0

theorem scan_complete (sh : Shape) (hsh : sh ≠ []) (cs : List Char) :
    ∀ pos skip q, pos + skip ≤ q → matchesAt sh (cs.drop (q - pos)) = true →
      ∃ pm ∈ scan sh cs pos skip, pm.1 ≤ q ∧ q < pm.1 + sh.length := by
  induction cs with
  | nil =>
    intro pos skip q hq hmat
    rw [List.drop_nil] at hmat
    cases sh with
    | nil => exact absurd rfl hsh
    | cons t ts => simp [matchesAt] at hmat
  | cons c cs ih =>
    intro pos skip q hq hmat
    have hlen : 1 ≤ sh.length := by
      cases sh with
      | nil => exact absurd rfl hsh
      | cons t ts => simp
    match skip with
    | skip + 1 =>
      rw [scan]
      have hq1 : pos + 1 ≤ q := by omega
      have hs : q - pos = (q - (pos + 1)) + 1 := by omega
      rw [hs, List.drop_succ_cons] at hmat
      exact ih (pos + 1) skip q (by omega) hmat
    | 0 =>
      rw [scan]
      by_cases hm : matchesAt sh (c :: cs) = true
      · rw [if_pos hm]
        by_cases hcover : q < pos + sh.length
        · refine ⟨(pos, String.mk ((c :: cs).take sh.length)), List.mem_cons_self _ _, ?_, ?_⟩
          · omega
          · omega
        · push_neg at hcover
          have hq1 : pos + 1 ≤ q := by omega
          have hs : q - pos = (q - (pos + 1)) + 1 := by omega
          rw [hs, List.drop_succ_cons] at hmat
          obtain ⟨pm, hpm, hle, hlt⟩ := ih (pos + 1) (sh.length - 1) q (by omega) hmat
          exact ⟨pm, List.mem_cons_of_mem _ hpm, hle, hlt⟩
      · rw [if_neg hm]
        have hqpos : q ≠ pos := by
          intro hqq
          subst hqq
          rw [Nat.sub_self, List.drop_zero] at hmat
          exact hm hmat
        have hq1 : pos + 1 ≤ q := by omega
        have hs : q - pos = (q - (pos + 1)) + 1 := by omega
        rw [hs, List.drop_succ_cons] at hmat
        exact ih (pos + 1) 0 q (by omega) hmat

theorem foldl_append_eq_join {α β : Type} (g : α → List β) (l : List α) :
    ∀ acc : List β, l.foldl (fun a x => a ++ g x) acc = acc ++ (l.map g).flatten := by
  induction l with
  | nil => intro acc; simp
  | cons x l ih => intro acc; simp [ih, List.append_assoc]

theorem dash_bne_slash : (('-' : Char) == '/') = false := by decide

theorem dash_bne_dot : (('-' : Char) == '.') = false := by decide

theorem slash_bne_dash : (('/' : Char) == '-') = false := by decide

theorem slash_bne_dot : (('/' : Char) == '.') = false := by decide

theorem dot_bne_dash : (('.' : Char) == '-') = false := by decide

theorem dot_bne_slash : (('.' : Char) == '/') = false := by decide

theorem dash_isDigit_false : ('-' : Char).isDigit = false := by decide

theorem slash_isDigit_false : ('/' : Char).isDigit = false := by decide

theorem dot_isDigit_false : ('.' : Char).isDigit = false := by decide

/-- C8: `findDatesInText` is the concatenation, in pattern-declaration order
(YYYY-MM-DD, MM/DD/YYYY, DD-MM-YYYY, YYYY.MM.DD), of each pattern's own
match list, with no cross-pattern deduplication or reordering; and each
pattern's list is its left-to-right non-overlapping matches: every reported
pair is a real match at its position, positions increase by at least the
pattern length, and every position where the pattern matches is covered by
some reported match. -/
theorem findDates_concat_pattern_order_ltr :
    (∀ s : String, findDatesInText s =
      (DATE_FORMATS.map fun sh => (scan sh s.data 0 0).map Prod.snd).flatten)
    ∧ (∀ sh ∈ DATE_FORMATS, ∀ s : String,
        (∀ pm ∈ scan sh s.data 0 0,
          matchesAt sh (s.data.drop pm.1) = true ∧
            pm.2 = String.mk ((s.data.drop pm.1).take sh.length))
        ∧ List.Chain' (fun a b : Nat × String => a.1 + sh.length ≤ b.1) (scan sh s.data 0 0)
        ∧ ∀ q, matchesAt sh (s.data.drop q) = true →
            ∃ pm ∈ scan sh s.data 0 0, pm.1 ≤ q ∧ q < pm.1 + sh.length) := by
  constructor
  · intro s
    rw [findDatesInText, foldl_append_eq_join]
    simp
  · intro sh hsh s
    have hne : sh ≠ [] := (by decide : ∀ x ∈ DATE_FORMATS, x ≠ []) sh hsh
    refine ⟨fun pm hpm => ?_, scan_chain sh s.data 0 0, fun q hq => ?_⟩
    · have h := scan_sound sh s.data 0 0 pm hpm
      exact ⟨by simpa using h.2.2.1, by simpa using h.2.2.2⟩
    · have h := scan_complete sh hne s.data 0 0 q (by omega) (by simpa using hq)
      exact h

theorem findDates_concat_pattern_order_ltr_witness :
    ∃ pm ∈ scan shapeYMDdash ("ab 2024-01-01").data 0 0,
      pm.1 ≤ 3 ∧ 3 < pm.1 + shapeYMDdash.length :=
  (findDates_concat_pattern_order_ltr.2 shapeYMDdash (by decide) "ab 2024-01-01").2.2
    3 (by decide)

/-- C7: a string that is exactly one pattern shape carrying a valid calendar
date produces exactly one match in `findDatesInText`, whose substring is the
whole input; no other pattern contributes a match on such an input. The four
conjuncts cover the four shapes YYYY-MM-DD, MM/DD/YYYY, DD-MM-YYYY and
YYYY.MM.DD respectively. -/
theorem single_pattern_input_single_match :
    (∀ a b c d e f g h : Char, a.isDigit = true → b.isDigit = true → c.isDigit = true →
      d.isDigit = true → e.isDigit = true → f.isDigit = true → g.isDigit = true →
      h.isDigit = true →
      (parseDate (String.mk [a, b, c, d, '-', e, f, '-', g, h])).isSome = true →
      findDatesInText (String.mk [a, b, c, d, '-', e, f, '-', g, h]) =
        [String.mk [a, b, c, d, '-', e, f, '-', g, h]])
    ∧ (∀ a b c d e f g h : Char, a.isDigit = true → b.isDigit = true → c.isDigit = true →
      d.isDigit = true → e.isDigit = true → f.isDigit = true → g.isDigit = true →
      h.isDigit = true →
      (parseDate (String.mk [a, b, '/', c, d, '/', e, f, g, h])).isSome = true →
      findDatesInText (String.mk [a, b, '/', c, d, '/', e, f, g, h]) =
        [String.mk [a, b, '/', c, d, '/', e, f, g, h]])
    ∧ (∀ a b c d e f g h : Char, a.isDigit = true → b.isDigit = true → c.isDigit = true →
      d.isDigit = true → e.isDigit = true → f.isDigit = true → g.isDigit = true →
      h.isDigit = true →
      (parseDate (String.mk [a, b, '-', c, d, '-', e, f, g, h])).isSome = true →
      findDatesInText (String.mk [a, b, '-', c, d, '-', e, f, g, h]) =
        [String.mk [a, b, '-', c, d, '-', e, f, g, h]])
    ∧ (∀ a b c d e f g h : Char, a.isDigit = true → b.isDigit = true → c.isDigit = true →
      d.isDigit = true → e.isDigit = true → f.isDigit = true → g.isDigit = true →
      h.isDigit = true →
      (parseDate (String.mk [a, b, c, d, '.', e, f, '.', g, h])).isSome = true →
      findDatesInText (String.mk [a, b, c, d, '.', e, f, '.', g, h]) =
        [String.mk [a, b, c, d, '.', e, f, '.', g, h]]) := by
  refine ⟨?_, ?_, ?_, ?_⟩ <;>
    (intro a b c d e f g h ha hb hc hd he hf hg hh _
     simp [findDatesInText, DATE_FORMATS, shapeYMDdash, shapeMDYslash, shapeDMYdash,
       shapeYMDdot, scan, matchesAt, tokMatches, ha, hb, hc, hd, he, hf, hg, hh,
       digit_bne_dash, digit_bne_slash, digit_bne_dot, dash_bne_slash, dash_bne_dot,
       slash_bne_dash, slash_bne_dot, dot_bne_dash, dot_bne_slash, dash_isDigit_false,
       slash_isDigit_false, dot_isDigit_false])

theorem single_pattern_input_single_match_witness :
    findDatesInText (String.mk ['2', '0', '2', '4', '-', '0', '3', '-', '3', '0']) =
      [String.mk ['2', '0', '2', '4', '-', '0', '3', '-', '3', '0']] :=
  single_pattern_input_single_match.1 '2' '0' '2' '4' '0' '3' '3' '0'
    (by decide) (by decide) (by decide) (by decide) (by decide) (by decide)
    (by decide) (by decide) (by decide)

theorem decorateMatches_const (t : Int) (settings : DateHighlighterSettings) :
    ∀ (l : List (Nat × String)) (k : Nat),
      decorateMatches (fun _ => t) settings k l =
        l.map fun pm =>
          ⟨pm.1, pm.1 + pm.2.length, (getHighlightColor pm.2 settings t).bg,
            (getHighlightColor pm.2 settings t).text, generateDateTooltip pm.2 t⟩ := by
  intro l
  induction l with
  | nil => intro k; simp [decorateMatches]
  | cons pm rest ih =>
    intro k
    cases pm with
    | mk pos dateStr => simp [decorateMatches, ih]

/-- C9 counterexample: the pass reads the current moment twice per match, not
once per pass, so under a wall clock that advances from 2024-01-02 to
2024-03-01 after the first match's reads, one pass over two occurrences of
the same date "2024-01-01" classifies the first Recent ("Yesterday") and the
second Old ("60 days ago") — the dates of a single pass are not all
evaluated against the same now. -/
theorem pass_clock_not_single_snapshot_cex :
    buildDecorations clockCex DEFAULT_SETTINGS [⟨0, "2024-01-01 2024-01-01"⟩] =
      Except.ok [⟨0, 10, "#a4e7c3", "#000000", "Yesterday"⟩,
        ⟨11, 21, "#e7a4a4", "#000000", "60 days ago"⟩]
    ∧ (⟨0, 10, "#a4e7c3", "#000000", "Yesterday"⟩ : Mark).bg ≠
        (⟨11, 21, "#e7a4a4", "#000000", "60 days ago"⟩ : Mark).bg :=
  ⟨rfl, by decide⟩

/-- C9 as amended: the pass is pure, hence deterministic and idempotent given
the clock readings; when every read during a pass returns the same instant,
the pass coincides with the single-snapshot pass in which all dates are
classified and labelled against that one now. However the code reads the
current moment twice per match (color, then tooltip), not once per pass, so
a clock advancing mid-pass can classify dates of one pass inconsistently. -/
theorem pass_deterministic_under_constant_clock (t : Int)
    (settings : DateHighlighterSettings) (ranges : List VisRange) :
    buildDecorations (fun _ => t) settings ranges = buildDecorationsAt t settings ranges := by
  by_cases hon : settings.highlightInlineContent = false
  · simp [buildDecorations, buildDecorationsAt, hon]
  · simp only [buildDecorations, buildDecorationsAt, if_neg hon]
    rw [decorateMatches_const]

/-- C1 (code bug): on a single visible range containing
"03/30/2024 2024-01-01" the YYYY-MM-DD pattern is processed first and adds
its match at offset 11 before the MM/DD/YYYY pattern adds its match at
offset 0, so `RangeSetBuilder.add` receives decreasing start positions and
the pass aborts with an error instead of returning a decoration set: the
spec's guarantee that no exception propagates out of the pass fails here. -/
theorem buildDecorations_errors_on_cross_pattern_order :
    buildDecorations (fun _ => dateStartMs ⟨2024, 3, 30⟩) DEFAULT_SETTINGS
      [⟨0, "03/30/2024 2024-01-01"⟩] =
      Except.error "Ranges must be added sorted by from position and startSide"
    ∧ allAdds [⟨0, "03/30/2024 2024-01-01"⟩] = [(11, "2024-01-01"), (0, "03/30/2024")] :=
  ⟨rfl, rfl⟩
